import Mathlib

/-
Verification of the resource-orchestration core of the LOG8415_Labs scripts:
a shallow embedding of the teardown coordinator (src/terminate_resources.py),
the target-group operations (src/target_groups.py), the load-balancer
operations (src/loadbalancer.py), the reachability waits
(src/TP1/deploy_fastAPI.py, src/TP1/create_instances.py) and the health-gated
benchmark step of the orchestration script (src/TP1/main.py, src/main.py).

Provider calls are modelled as pure data: the account state visible to the
describe calls is a value, and the outcome the provider would give each
mutating call (success, or a raised error) is recorded on the resource it
targets.  Each embedded function returns the trace of mutating API calls it
issued, in order, together with the error it let escape, mirroring Python
exception propagation.
-/

namespace Labs

/-- Errors a boto3 call can raise, as the scripts distinguish them:
ResourceInUseException and TargetGroupNotFound are the two ClientError
subclasses the code matches on, clientError stands for any other
botocore ClientError, and otherError for a non-ClientError exception. -/
inductive AwsErr where
  | resourceInUse (msg : String)
  | targetGroupNotFound (msg : String)
  | clientError (code : String)
  | otherError (msg : String)
deriving DecidableEq

/-- Whether the exception is a botocore ClientError (everything except a
plain Python exception). -/
def AwsErr.isClientError : AwsErr → Bool
  | .otherError _ => false
  | _ => true

/-- Mutating provider calls issued by the teardown pass, in the order the
scripts issue them. -/
inductive ApiCall where
  | deleteListener (arn : String)
  | deleteLoadBalancer (arn : String)
  | deleteClassicLB (name : String)
  | deleteTargetGroup (arn : String)
  | terminateInstances (ids : List String)
deriving DecidableEq

def ApiCall.isTargetGroupDelete : ApiCall → Bool
  | .deleteTargetGroup _ => true
  | _ => false

def ApiCall.isListenerDelete : ApiCall → Bool
  | .deleteListener _ => true
  | _ => false

def ApiCall.isAlbDelete : ApiCall → Bool
  | .deleteLoadBalancer _ => true
  | _ => false

def ApiCall.isClassicDelete : ApiCall → Bool
  | .deleteClassicLB _ => true
  | _ => false

/-- A load-balancer-phase call: listener, ALB/NLB or classic LB deletion. -/
def ApiCall.isLbPhase : ApiCall → Bool
  | .deleteListener _ => true
  | .deleteLoadBalancer _ => true
  | .deleteClassicLB _ => true
  | _ => false

def ApiCall.isTerminate : ApiCall → Bool
  | .terminateInstances _ => true
  | _ => false

/-- A listener as describe_listeners reports it, together with the outcome
the provider would give its delete_listener call. -/
structure Listener where
  arn : String
  lbArn : String
  deleteErr : Option AwsErr
deriving DecidableEq

/-- An ALB/NLB as the elbv2 describe_load_balancers call reports it. -/
structure LoadBalancer where
  arn : String
  name : String
  deleteErr : Option AwsErr
deriving DecidableEq

/-- A Classic Load Balancer as the elb describe_load_balancers call
reports it. -/
structure ClassicLB where
  name : String
  deleteErr : Option AwsErr
deriving DecidableEq

/-- A target group as describe_target_groups reports it; deleteErr is the
outcome the provider would give its delete_target_group call
(resourceInUse when the group is still attached to a live resource). -/
structure TargetGroup where
  arn : String
  name : String
  deleteErr : Option AwsErr
deriving DecidableEq

/-- True when deleting the group raises something other than the
ResourceInUseException that delete_all_target_groups catches. -/
def TargetGroup.fatalErr (g : TargetGroup) : Bool :=
  match g.deleteErr with
  | none => false
  | some (.resourceInUse _) => false
  | some _ => true

/-- True when deleting the group raises ResourceInUseException. -/
def TargetGroup.isInUseErr (g : TargetGroup) : Bool :=
  match g.deleteErr with
  | some (.resourceInUse _) => true
  | _ => false

/-- The account/region state the teardown discovers, plus the outcome the
provider would give the batched terminate_instances call. -/
structure AwsState where
  loadBalancers : List LoadBalancer
  listeners : List Listener
  classicLBs : List ClassicLB
  targetGroups : List TargetGroup
  instances : List String
  terminateErr : Option AwsErr
deriving DecidableEq

/-- The observable result of a teardown phase: the trace of mutating calls
issued (in order), the names of target groups reported as skipped because
they were in use, and the exception the phase let escape (none on normal
return). -/
structure TdResult where
  calls : List ApiCall
  skipped : List String
  err : Option AwsErr
deriving DecidableEq

/-- Sequential composition of two phases, as Python statement sequencing:
the second runs only when the first returned normally; an escaping
exception from the first aborts the rest. -/
def tdSeq (a b : TdResult) : TdResult :=
  match a.err with
  | some e => ⟨a.calls, a.skipped, some e⟩
  | none => ⟨a.calls ++ b.calls, a.skipped ++ b.skipped, b.err⟩

/-- Body of the listener loop of delete_listeners_for_load_balancer
(src/terminate_resources.py lines 29-38): each listener gets one
delete_listener call; a raised error escapes (no try/except) and stops
the loop. -/
def delete_listeners_calls : List Listener → TdResult
  | [] => ⟨[], [], none⟩
  | l :: rest =>
    match l.deleteErr with
    | some e => ⟨[ApiCall.deleteListener l.arn], [], some e⟩
    | none =>
      let r := delete_listeners_calls rest
      ⟨ApiCall.deleteListener l.arn :: r.calls, r.skipped, r.err⟩

/-- Model of delete_listeners_for_load_balancer
(src/terminate_resources.py lines 8-38): describe_listeners restricted to
the given load balancer, then delete each. -/
def delete_listeners_for_load_balancer (s : AwsState) (lbArn : String) : TdResult :=
  delete_listeners_calls (s.listeners.filter (fun l => l.lbArn == lbArn))

/-- Body of the ALB/NLB loop of delete_all_load_balancers
(src/terminate_resources.py lines 65-79): for each load balancer, delete
its listeners, then the load balancer itself; any raised error escapes
and stops the loop. -/
def delete_albs (s : AwsState) : List LoadBalancer → TdResult
  | [] => ⟨[], [], none⟩
  | lb :: rest =>
    let lr := delete_listeners_for_load_balancer s lb.arn
    match lr.err with
    | some e => ⟨lr.calls, lr.skipped, some e⟩
    | none =>
      match lb.deleteErr with
      | some e => ⟨lr.calls ++ [ApiCall.deleteLoadBalancer lb.arn], lr.skipped, some e⟩
      | none =>
        let r := delete_albs s rest
        ⟨lr.calls ++ ApiCall.deleteLoadBalancer lb.arn :: r.calls, lr.skipped ++ r.skipped, r.err⟩

/-- Body of the Classic Load Balancer loop of delete_all_load_balancers
(src/terminate_resources.py lines 81-88): each classic LB gets one
delete_load_balancer call, with no listener step; raised errors escape. -/
def delete_classics : List ClassicLB → TdResult
  | [] => ⟨[], [], none⟩
  | c :: rest =>
    match c.deleteErr with
    | some e => ⟨[ApiCall.deleteClassicLB c.name], [], some e⟩
    | none =>
      let r := delete_classics rest
      ⟨ApiCall.deleteClassicLB c.name :: r.calls, r.skipped, r.err⟩

/-- Model of delete_all_load_balancers (src/terminate_resources.py lines
41-88): ALBs/NLBs (listeners first, then the balancer), then Classic
Load Balancers. -/
def delete_all_load_balancers (s : AwsState) : TdResult :=
  tdSeq (delete_albs s s.loadBalancers) (delete_classics s.classicLBs)

/-- Body of the target-group loop of delete_all_target_groups
(src/terminate_resources.py lines 115-130): each group gets one
delete_target_group attempt; ResourceInUseException is caught, the group
is reported skipped and the loop continues; any other error escapes. -/
def delete_tgs : List TargetGroup → TdResult
  | [] => ⟨[], [], none⟩
  | g :: rest =>
    match g.deleteErr with
    | none =>
      let r := delete_tgs rest
      ⟨ApiCall.deleteTargetGroup g.arn :: r.calls, r.skipped, r.err⟩
    | some (.resourceInUse _) =>
      let r := delete_tgs rest
      ⟨ApiCall.deleteTargetGroup g.arn :: r.calls, g.name :: r.skipped, r.err⟩
    | some e => ⟨[ApiCall.deleteTargetGroup g.arn], [], some e⟩

/-- Model of delete_all_target_groups (src/terminate_resources.py lines
91-130). -/
def delete_all_target_groups (s : AwsState) : TdResult :=
  delete_tgs s.targetGroups

/-- Model of terminate_all_instances (src/terminate_resources.py lines
133-166): all discovered instance ids are collected and terminated in one
batched terminate_instances call; an empty set issues no call and is not
an error. -/
def terminate_all_instances (s : AwsState) : TdResult :=
  if s.instances.isEmpty then ⟨[], [], none⟩
  else ⟨[ApiCall.terminateInstances s.instances], [], s.terminateErr⟩

/-- Model of the teardown call sequence of src/main.py lines 156-158 and
src/TP1/main.py lines 219-221: delete_all_load_balancers, then
delete_all_target_groups, then terminate_all_instances, with no
try/except around any of them. -/
def teardown (s : AwsState) : TdResult :=
  tdSeq (delete_all_load_balancers s)
    (tdSeq (delete_all_target_groups s) (terminate_all_instances s))

/-- Names of the target groups the teardown reports as skipped (in use). -/
def skippedNames (gs : List TargetGroup) : List String :=
  (gs.filter (fun g => g.isInUseErr)).map (fun g => g.name)

/-- A target group as the provisioning path sees it: name, ARN and the
health-check path it was created with. -/
structure TgRecord where
  name : String
  arn : String
  healthCheckPath : String
deriving DecidableEq

/-- The set of target groups the elbv2 client can describe by name. -/
structure TgRegistry where
  groups : List TgRecord
deriving DecidableEq

/-- Model of create_target_group (src/target_groups.py lines 6-65).
describe_target_groups(Names=[group_name]) either finds the group or
raises TargetGroupNotFound.  When the group is found, the code deletes it
and the function returns with no value (Python None): the create call
sits inside the except-ClientError branch, so it runs only when the group
did not exist, in which case a group with health-check path /path is
created and its fresh ARN returned. -/
def create_target_group (reg : TgRegistry) (group_name path freshArn : String) :
    TgRegistry × Option String :=
  match reg.groups.find? (fun g => g.name == group_name) with
  | some tg => (⟨reg.groups.filter (fun g => g.arn != tg.arn)⟩, none)
  | none => (⟨⟨group_name, freshArn, "/" ++ path⟩ :: reg.groups⟩, some freshArn)

/-- Model of register_instances (src/target_groups.py lines 69-91).
The argument is the outcome of the register_targets provider call (none
on success, some e when it raises e).  The result is the message family
printed and the exception the function lets escape: the except-ClientError
and except-Exception clauses both print and return normally, so no
exception ever escapes. -/
def register_instances (outcome : Option AwsErr) : String × Option AwsErr :=
  match outcome with
  | none => ("registered", none)
  | some e =>
    if e.isClientError then ("failed to register", none)
    else ("unexpected error", none)

/-- Model of create_listener (src/loadbalancer.py lines 43-89).
The argument is the outcome of the provider call (ok listenerArn, or the
exception it raises).  A ClientError is caught, printed and the function
returns Python None; any other exception escapes. -/
def create_listener (outcome : Except AwsErr String) : Except AwsErr (Option String) :=
  match outcome with
  | .ok arn => .ok (some arn)
  | .error e => if e.isClientError then .ok none else .error e

/-- Loop of wait_for_ssh (src/TP1/deploy_fastAPI.py lines 11-49), with the
attempt counter made explicit: conn k tells whether the k-th connection
attempt succeeds (every raised paramiko/socket exception is caught); the
function returns true on the first success and false once the retry
budget is exhausted. -/
def wait_for_ssh_from (conn : Nat → Bool) : Nat → Nat → Bool
  | _, 0 => false
  | a, Nat.succ n => if conn a then true else wait_for_ssh_from conn (a + 1) n

/-- Model of wait_for_ssh (src/TP1/deploy_fastAPI.py lines 11-49). -/
def wait_for_ssh (conn : Nat → Bool) (retries : Nat) : Bool :=
  wait_for_ssh_from conn 0 retries

/-- Loop of wait_for_public_ip (src/TP1/create_instances.py lines
157-202): ip k is the PublicIpAddress field the k-th describe_instances
poll reports; the first some is returned, and exhausting the retries
raises an exception (modelled as Except.error with the message the code
raises). -/
def wait_for_public_ip_from (ip : Nat → Option String) (instance_id : String) :
    Nat → Nat → Except String String
  | _, 0 => .error ("Public IP for instance " ++ instance_id ++ " could not be retrieved.")
  | a, Nat.succ n =>
    match ip a with
    | some p => .ok p
    | none => wait_for_public_ip_from ip instance_id (a + 1) n

/-- Model of wait_for_public_ip (src/TP1/create_instances.py lines
157-202). -/
def wait_for_public_ip (ip : Nat → Option String) (instance_id : String)
    (retries : Nat) : Except String String :=
  wait_for_public_ip_from ip instance_id 0 retries

/-- Health state of one registered target, as describe_target_health
reports it. -/
inductive HealthState where
  | Initial
  | Healthy
  | Unhealthy
  | Draining
  | Unused
deriving DecidableEq

/-- One poll of a target group: each registered target id with its
reported health state. -/
structure HealthSnapshot where
  targets : List (String × HealthState)
deriving DecidableEq

/-- Every registered target of the snapshot reports Healthy (vacuously
true for an empty target set). -/
def allHealthy (snap : HealthSnapshot) : Bool :=
  snap.targets.all (fun p => decide (p.2 = HealthState.Healthy))

/-- Outcome of the health gate: Ready with the first all-healthy
snapshot, or TimedOut with the last observed snapshot. -/
inductive Outcome where
  | Ready (snap : HealthSnapshot)
  | TimedOut (snap : HealthSnapshot)
deriving DecidableEq

/-- Modelled from the spec: the polling loop of the health gate
(HealthGate.await_healthy); wait_for_target_group_health is imported from
target_groups in src/main.py and src/TP1/main.py but defined nowhere
under src/.  poll k is the snapshot the k-th describe_target_health call
returns; last is the most recent snapshot (used when the budget is
already exhausted).  The result pairs the outcome with the number of
polls performed. -/
def healthAux (poll : Nat → HealthSnapshot) (last : HealthSnapshot) (start : Nat) :
    Nat → Outcome × Nat
  | 0 => (Outcome.TimedOut last, 0)
  | Nat.succ n =>
    let snap := poll start
    if allHealthy snap then (Outcome.Ready snap, 1)
    else
      let r := healthAux poll snap (start + 1) n
      (r.1, r.2 + 1)

/-- Modelled from the spec: wait_for_target_group_health
(HealthGate.await_healthy), absent from src/ (only its import and call
sites exist, src/TP1/main.py lines 139-141).  Polls up to max_retries
times, sleeping delay seconds between attempts (wall-clock time is not
modelled); returns Ready on the first snapshot whose targets are all
healthy, and TimedOut carrying the last snapshot after max_retries
unsuccessful polls, together with the number of polls performed. -/
def wait_for_target_group_health (poll : Nat → HealthSnapshot)
    (max_retries delay : Nat) : Outcome × Nat :=
  let _ := delay
  healthAux poll ⟨[]⟩ 0 max_retries

/-- Modelled from the spec: truthiness of the gate outcome as the guard
of src/TP1/main.py line 145 consumes it (Ready gates the benchmark in,
TimedOut gates it out). -/
def outcome_truthy : Outcome → Bool
  | .Ready _ => true
  | .TimedOut _ => false

/-- Model of the benchmark gating block (src/TP1/main.py lines 139-149):
the benchmark script is sent and executed iff the health gates of both
clusters returned a truthy result. -/
def benchmark_executed (g1 g2 : Outcome × Nat) : Bool :=
  outcome_truthy g1.1 && outcome_truthy g2.1

/-- Sequencing after a normally returning phase concatenates calls and
skip reports and exposes the second phase's escaping error. -/
theorem tdSeq_none {a : TdResult} (h : a.err = none) (b : TdResult) :
    tdSeq a b = ⟨a.calls ++ b.calls, a.skipped ++ b.skipped, b.err⟩ := by
  unfold tdSeq
  rw [h]

/-- Sequencing after a phase whose exception escapes never runs the
second phase. -/
theorem tdSeq_some {a : TdResult} {e : AwsErr} (h : a.err = some e) (b : TdResult) :
    tdSeq a b = ⟨a.calls, a.skipped, some e⟩ := by
  unfold tdSeq
  rw [h]

/-- Every call the listener loop issues is a delete_listener call for a
listener of the list it was given. -/
theorem mem_delete_listeners_calls {ls : List Listener} {c : ApiCall}
    (h : c ∈ (delete_listeners_calls ls).calls) :
    ∃ l ∈ ls, c = ApiCall.deleteListener l.arn := by
  induction ls with
  | nil => simp [delete_listeners_calls] at h
  | cons l rest ih =>
    cases he : l.deleteErr with
    | some e =>
      simp [delete_listeners_calls, he] at h
      exact ⟨l, by simp, h⟩
    | none =>
      simp [delete_listeners_calls, he] at h
      rcases h with h | h
      · exact ⟨l, by simp, h⟩
      · obtain ⟨l', hl', hc⟩ := ih h
        exact ⟨l', by simp [hl'], hc⟩

/-- A listener loop that returns normally attempted every listener, in
list order. -/
theorem delete_listeners_calls_ok {ls : List Listener}
    (h : (delete_listeners_calls ls).err = none) :
    (delete_listeners_calls ls).calls = ls.map (fun l => ApiCall.deleteListener l.arn) := by
  induction ls with
  | nil => rfl
  | cons l rest ih =>
    cases he : l.deleteErr with
    | some e => simp [delete_listeners_calls, he] at h
    | none =>
      simp only [delete_listeners_calls, he] at h ⊢
      simp only [List.map_cons, List.cons.injEq, true_and]
      exact ih h

/-- The listener loop reports no skipped target groups. -/
theorem delete_listeners_calls_skipped (ls : List Listener) :
    (delete_listeners_calls ls).skipped = [] := by
  induction ls with
  | nil => rfl
  | cons l rest ih =>
    cases he : l.deleteErr with
    | some e => simp [delete_listeners_calls, he]
    | none => simp [delete_listeners_calls, he, ih]

/-- Every call the ALB/NLB loop issues is a listener deletion for a
listener of one of its load balancers, or the deletion of one of its
load balancers. -/
theorem mem_delete_albs {s : AwsState} {lbs : List LoadBalancer} {c : ApiCall}
    (h : c ∈ (delete_albs s lbs).calls) :
    (∃ lb ∈ lbs, ∃ l ∈ s.listeners, l.lbArn = lb.arn ∧ c = ApiCall.deleteListener l.arn) ∨
    ∃ lb ∈ lbs, c = ApiCall.deleteLoadBalancer lb.arn := by
  induction lbs with
  | nil => simp [delete_albs] at h
  | cons lb rest ih =>
    have hmeml : ∀ c', c' ∈ (delete_listeners_for_load_balancer s lb.arn).calls →
        ∃ l ∈ s.listeners, l.lbArn = lb.arn ∧ c' = ApiCall.deleteListener l.arn := by
      intro c' hc'
      obtain ⟨l, hl, hceq⟩ := mem_delete_listeners_calls hc'
      rw [List.mem_filter] at hl
      exact ⟨l, hl.1, by simpa using hl.2, hceq⟩
    cases hle : (delete_listeners_for_load_balancer s lb.arn).err with
    | some e =>
      simp [delete_albs, hle] at h
      exact Or.inl ⟨lb, by simp, hmeml c h⟩
    | none =>
      cases hde : lb.deleteErr with
      | some e =>
        simp [delete_albs, hle, hde] at h
        rcases h with h | h
        · exact Or.inl ⟨lb, by simp, hmeml c h⟩
        · exact Or.inr ⟨lb, by simp, h⟩
      | none =>
        simp [delete_albs, hle, hde] at h
        rcases h with h | h | h
        · exact Or.inl ⟨lb, by simp, hmeml c h⟩
        · exact Or.inr ⟨lb, by simp, h⟩
        · rcases ih h with ⟨lb', hlb', hrest⟩ | ⟨lb', hlb', hc⟩
          · exact Or.inl ⟨lb', by simp [hlb'], hrest⟩
          · exact Or.inr ⟨lb', by simp [hlb'], hc⟩

/-- The ALB/NLB loop reports no skipped target groups. -/
theorem delete_albs_skipped (s : AwsState) (lbs : List LoadBalancer) :
    (delete_albs s lbs).skipped = [] := by
  induction lbs with
  | nil => rfl
  | cons lb rest ih =>
    have hls : (delete_listeners_for_load_balancer s lb.arn).skipped = [] :=
      delete_listeners_calls_skipped _
    cases hle : (delete_listeners_for_load_balancer s lb.arn).err with
    | some e => simp [delete_albs, hle, hls]
    | none =>
      cases hde : lb.deleteErr with
      | some e => simp [delete_albs, hle, hde, hls]
      | none => simp [delete_albs, hle, hde, hls, ih]

/-- Every call the Classic Load Balancer loop issues is the deletion of
one of its classic load balancers (in particular, never a listener
deletion). -/
theorem mem_delete_classics {cs : List ClassicLB} {c : ApiCall}
    (h : c ∈ (delete_classics cs).calls) :
    ∃ k ∈ cs, c = ApiCall.deleteClassicLB k.name := by
  induction cs with
  | nil => simp [delete_classics] at h
  | cons k rest ih =>
    cases he : k.deleteErr with
    | some e =>
      simp [delete_classics, he] at h
      exact ⟨k, by simp, h⟩
    | none =>
      simp [delete_classics, he] at h
      rcases h with h | h
      · exact ⟨k, by simp, h⟩
      · obtain ⟨k', hk', hc⟩ := ih h
        exact ⟨k', by simp [hk'], hc⟩

/-- A classic loop that returns normally deleted every classic load
balancer, in list order. -/
theorem delete_classics_ok {cs : List ClassicLB}
    (h : (delete_classics cs).err = none) :
    (delete_classics cs).calls = cs.map (fun k => ApiCall.deleteClassicLB k.name) := by
  induction cs with
  | nil => rfl
  | cons k rest ih =>
    cases he : k.deleteErr with
    | some e => simp [delete_classics, he] at h
    | none =>
      simp only [delete_classics, he] at h ⊢
      simp only [List.map_cons, List.cons.injEq, true_and]
      exact ih h

/-- The classic loop reports no skipped target groups. -/
theorem delete_classics_skipped (cs : List ClassicLB) :
    (delete_classics cs).skipped = [] := by
  induction cs with
  | nil => rfl
  | cons k rest ih =>
    cases he : k.deleteErr with
    | some e => simp [delete_classics, he]
    | none => simp [delete_classics, he, ih]

/-- Every call the target-group loop issues is the deletion of one of
its target groups. -/
theorem mem_delete_tgs {gs : List TargetGroup} {c : ApiCall}
    (h : c ∈ (delete_tgs gs).calls) :
    ∃ g ∈ gs, c = ApiCall.deleteTargetGroup g.arn := by
  induction gs with
  | nil => simp [delete_tgs] at h
  | cons g rest ih =>
    have htail : c = ApiCall.deleteTargetGroup g.arn ∨ c ∈ (delete_tgs rest).calls →
        ∃ g' ∈ g :: rest, c = ApiCall.deleteTargetGroup g'.arn := by
      rintro (h | h)
      · exact ⟨g, by simp, h⟩
      · obtain ⟨g', hg', hc⟩ := ih h
        exact ⟨g', by simp [hg'], hc⟩
    cases he : g.deleteErr with
    | none =>
      simp [delete_tgs, he] at h
      exact htail h
    | some e =>
      cases e with
      | resourceInUse m =>
        simp [delete_tgs, he] at h
        exact htail h
      | targetGroupNotFound m =>
        simp [delete_tgs, he] at h
        exact ⟨g, by simp, h⟩
      | clientError m =>
        simp [delete_tgs, he] at h
        exact ⟨g, by simp, h⟩
      | otherError m =>
        simp [delete_tgs, he] at h
        exact ⟨g, by simp, h⟩

/-- When no target group raises anything the loop cannot catch, the loop
attempts every group in order, reports exactly the in-use ones as
skipped and returns normally. -/
theorem delete_tgs_nonfatal {gs : List TargetGroup}
    (h : ∀ g ∈ gs, g.fatalErr = false) :
    delete_tgs gs =
      ⟨gs.map (fun g => ApiCall.deleteTargetGroup g.arn), skippedNames gs, none⟩ := by
  induction gs with
  | nil => rfl
  | cons g rest ih =>
    have hg := h g (by simp)
    have hrest := ih (fun g' hg' => h g' (by simp [hg']))
    cases he : g.deleteErr with
    | none =>
      have hnotuse : g.isInUseErr = false := by simp [TargetGroup.isInUseErr, he]
      simp [delete_tgs, he, hrest, skippedNames, hnotuse]
    | some e =>
      cases e with
      | resourceInUse m =>
        have huse : g.isInUseErr = true := by simp [TargetGroup.isInUseErr, he]
        simp [delete_tgs, he, hrest, skippedNames, huse]
      | targetGroupNotFound m => simp [TargetGroup.fatalErr, he] at hg
      | clientError m => simp [TargetGroup.fatalErr, he] at hg
      | otherError m => simp [TargetGroup.fatalErr, he] at hg

/-- In a trace decomposed as an early phase followed by a late phase,
every call matching the late predicate sits strictly after every call
matching the early predicate. -/
theorem trace_phase_order {t A B : List ApiCall} {late early : ApiCall → Bool}
    (hAB : t = A ++ B) (hA : ∀ c ∈ A, late c = false) (hB : ∀ c ∈ B, early c = false)
    (i j : Fin t.length) (hi : late (t.get i) = true) (hj : early (t.get j) = true) :
    j.val < i.val := by
  subst hAB
  rw [List.get_eq_getElem] at hi hj
  have hjlt : j.val < A.length := by
    by_contra hc
    push_neg at hc
    rw [List.getElem_append_right hc] at hj
    have hblt : j.val - A.length < B.length := by
      have hjl := j.isLt
      have hlen : (A ++ B).length = A.length + B.length := List.length_append _ _
      omega
    rw [hB _ (List.getElem_mem hblt)] at hj
    exact Bool.false_ne_true hj
  have hige : A.length ≤ i.val := by
    by_contra hc
    push_neg at hc
    rw [List.getElem_append_left hc] at hi
    rw [hA _ (List.getElem_mem hc)] at hi
    exact Bool.false_ne_true hi
  omega

/-- A call of a sequenced pair of phases comes from one of the two. -/
theorem mem_tdSeq {a b : TdResult} {c : ApiCall} (h : c ∈ (tdSeq a b).calls) :
    c ∈ a.calls ∨ c ∈ b.calls := by
  unfold tdSeq at h
  cases he : a.err
  · rw [he] at h
    exact List.mem_append.mp h
  · rw [he] at h
    exact Or.inl h

/-- Every call of the load-balancer pass is a listener, ALB/NLB or
classic deletion; in particular it deletes no target group and
terminates no instance. -/
theorem mem_lb_phase {s : AwsState} {c : ApiCall}
    (h : c ∈ (delete_all_load_balancers s).calls) :
    c.isLbPhase = true ∧ c.isTargetGroupDelete = false ∧ c.isTerminate = false := by
  rcases mem_tdSeq h with h | h
  · rcases mem_delete_albs h with ⟨_, _, l, _, _, rfl⟩ | ⟨lb, _, rfl⟩ <;> exact ⟨rfl, rfl, rfl⟩
  · obtain ⟨k, _, rfl⟩ := mem_delete_classics h
    exact ⟨rfl, rfl, rfl⟩

/-- Every call of the target-group pass deletes a target group. -/
theorem mem_tg_phase {s : AwsState} {c : ApiCall}
    (h : c ∈ (delete_all_target_groups s).calls) :
    c.isLbPhase = false ∧ c.isTargetGroupDelete = true ∧ c.isTerminate = false := by
  obtain ⟨g, _, rfl⟩ := mem_delete_tgs h
  exact ⟨rfl, rfl, rfl⟩

/-- The only call the instance pass can issue is the one batched
terminate over all discovered instances. -/
theorem mem_term_phase {s : AwsState} {c : ApiCall}
    (h : c ∈ (terminate_all_instances s).calls) :
    c = ApiCall.terminateInstances s.instances := by
  unfold terminate_all_instances at h
  split at h
  · simp at h
  · simpa using h

/-- The teardown trace is the load-balancer pass's trace followed only
by calls of the later passes (which touch no load balancer or
listener). -/
theorem teardown_calls_decomp (s : AwsState) :
    ∃ B, (teardown s).calls = (delete_all_load_balancers s).calls ++ B ∧
      ∀ c ∈ B, c.isLbPhase = false := by
  unfold teardown
  cases herr : (delete_all_load_balancers s).err with
  | some e =>
    rw [tdSeq_some herr]
    exact ⟨[], by simp, by simp⟩
  | none =>
    rw [tdSeq_none herr]
    refine ⟨(tdSeq (delete_all_target_groups s) (terminate_all_instances s)).calls, rfl, ?_⟩
    intro c hc
    rcases mem_tdSeq hc with hc | hc
    · exact (mem_tg_phase hc).1
    · rw [mem_term_phase hc]
      rfl

/-- The ALB/NLB segment is an initial segment of the load-balancer
pass's trace. -/
theorem albs_calls_initial (s : AwsState) :
    List.Sublist (delete_albs s s.loadBalancers).calls
      (delete_all_load_balancers s).calls := by
  unfold delete_all_load_balancers
  cases herr : (delete_albs s s.loadBalancers).err with
  | some e =>
    rw [tdSeq_some herr]
  | none =>
    rw [tdSeq_none herr]
    exact List.sublist_append_left _ _

/-- Whenever the ALB/NLB loop issues the deletion of a load balancer,
the deletion of each of that balancer's listeners was issued earlier in
the same trace. -/
theorem albs_listener_before_lb {s : AwsState} {lbs : List LoadBalancer}
    {lb : LoadBalancer} {l : Listener}
    (hlb : lb ∈ lbs) (hl : l ∈ s.listeners) (harn : l.lbArn = lb.arn)
    (hmem : ApiCall.deleteLoadBalancer lb.arn ∈ (delete_albs s lbs).calls) :
    List.Sublist [ApiCall.deleteListener l.arn, ApiCall.deleteLoadBalancer lb.arn]
      (delete_albs s lbs).calls := by
  induction lbs with
  | nil => simp [delete_albs] at hmem
  | cons lb0 rest ih =>
    by_cases heq : lb.arn = lb0.arn
    · cases hle : (delete_listeners_for_load_balancer s lb0.arn).err with
      | some e =>
        simp [delete_albs, hle] at hmem
        obtain ⟨l', _, hc⟩ := mem_delete_listeners_calls hmem
        exact absurd hc (by simp)
      | none =>
        have hlmem : ApiCall.deleteListener l.arn ∈
            (delete_listeners_for_load_balancer s lb0.arn).calls := by
          show ApiCall.deleteListener l.arn ∈ (delete_listeners_calls _).calls
          rw [delete_listeners_calls_ok hle]
          refine List.mem_map.mpr ⟨l, ?_, rfl⟩
          rw [List.mem_filter]
          exact ⟨hl, by simp [harn, heq]⟩
        have hpair : List.Sublist [ApiCall.deleteListener l.arn]
            (delete_listeners_for_load_balancer s lb0.arn).calls :=
          List.singleton_sublist.mpr hlmem
        cases hde : lb0.deleteErr with
        | some e =>
          have hcalls : (delete_albs s (lb0 :: rest)).calls =
              (delete_listeners_for_load_balancer s lb0.arn).calls ++
                [ApiCall.deleteLoadBalancer lb0.arn] := by
            simp [delete_albs, hle, hde]
          rw [hcalls, heq]
          exact List.Sublist.append hpair (List.Sublist.refl _)
        | none =>
          have hcalls : (delete_albs s (lb0 :: rest)).calls =
              (delete_listeners_for_load_balancer s lb0.arn).calls ++
                ApiCall.deleteLoadBalancer lb0.arn :: (delete_albs s rest).calls := by
            simp [delete_albs, hle, hde]
          rw [hcalls, heq]
          exact List.Sublist.append hpair (List.Sublist.cons₂ _ (List.nil_sublist _))
    · have hlb' : lb ∈ rest := by
        rcases List.mem_cons.mp hlb with rfl | h
        · exact absurd rfl heq
        · exact h
      cases hle : (delete_listeners_for_load_balancer s lb0.arn).err with
      | some e =>
        simp [delete_albs, hle] at hmem
        obtain ⟨l', _, hc⟩ := mem_delete_listeners_calls hmem
        exact absurd hc (by simp)
      | none =>
        cases hde : lb0.deleteErr with
        | some e =>
          simp [delete_albs, hle, hde] at hmem
          rcases hmem with h | h
          · obtain ⟨l', _, hc⟩ := mem_delete_listeners_calls h
            exact absurd hc (by simp)
          · exact absurd h heq
        | none =>
          simp [delete_albs, hle, hde] at hmem
          rcases hmem with h | h | h
          · obtain ⟨l', _, hc⟩ := mem_delete_listeners_calls h
            exact absurd hc (by simp)
          · exact absurd h heq
          · have hsub := ih hlb' h
            have hstep : List.Sublist (delete_albs s rest).calls
                (delete_albs s (lb0 :: rest)).calls := by
              have hcalls : (delete_albs s (lb0 :: rest)).calls =
                  (delete_listeners_for_load_balancer s lb0.arn).calls ++
                    ApiCall.deleteLoadBalancer lb0.arn :: (delete_albs s rest).calls := by
                simp [delete_albs, hle, hde]
              rw [hcalls]
              exact ((List.sublist_cons_self _ _).trans
                (List.sublist_append_right _ _))
            exact hsub.trans hstep

/-- A discovered account state with one ALB (one listener), one classic
load balancer, one in-use and one free target group, and two
instances. -/
def sOk : AwsState :=
  ⟨[⟨"arn-lb1", "lb1", none⟩],
   [⟨"arn-li1", "arn-lb1", none⟩],
   [⟨"clb1", none⟩],
   [⟨"arn-tg1", "tg1", some (AwsErr.resourceInUse "in use")⟩, ⟨"arn-tg2", "tg2", none⟩],
   ["i-1", "i-2"],
   none⟩

/-- A state whose single load balancer fails deletion with an
unclassified provider error, with a target group and an instance still
to process. -/
def sAbort : AwsState :=
  ⟨[⟨"arn-lb1", "lb1", some (AwsErr.clientError "InternalError")⟩], [], [],
   [⟨"arn-tg1", "tg1", none⟩], ["i-1"], none⟩

/-- An already-empty account state. -/
def sEmpty : AwsState := ⟨[], [], [], [], [], none⟩

/-- C1: in every teardown run, whenever the deletion of an ALB/NLB is
issued, the deletion of each of its listeners was issued earlier in the
trace, and every target-group deletion attempt comes strictly after
every load-balancer-phase call (listener, ALB/NLB and classic
deletions). -/
theorem teardown_dependency_order (s : AwsState) :
    (∀ lb ∈ s.loadBalancers, ∀ l ∈ s.listeners, l.lbArn = lb.arn →
      ApiCall.deleteLoadBalancer lb.arn ∈ (teardown s).calls →
      List.Sublist [ApiCall.deleteListener l.arn, ApiCall.deleteLoadBalancer lb.arn]
        (teardown s).calls) ∧
    ∀ i j : Fin (teardown s).calls.length,
      ((teardown s).calls.get i).isTargetGroupDelete = true →
      ((teardown s).calls.get j).isLbPhase = true → j.val < i.val := by
  obtain ⟨B, hB, hBlb⟩ := teardown_calls_decomp s
  constructor
  · intro lb hlb l hl harn hmem
    have hmem' : ApiCall.deleteLoadBalancer lb.arn ∈
        (delete_albs s s.loadBalancers).calls := by
      rw [hB] at hmem
      rcases List.mem_append.mp hmem with h | h
      · have h' : ApiCall.deleteLoadBalancer lb.arn ∈
            (tdSeq (delete_albs s s.loadBalancers)
              (delete_classics s.classicLBs)).calls := h
        rcases mem_tdSeq h' with h2 | h2
        · exact h2
        · obtain ⟨k, _, hk⟩ := mem_delete_classics h2
          exact absurd hk (by simp)
      · have hfalse := hBlb _ h
        simp [ApiCall.isLbPhase] at hfalse
    have hsub := albs_listener_before_lb hlb hl harn hmem'
    have hteard : List.Sublist (delete_all_load_balancers s).calls (teardown s).calls := by
      rw [hB]
      exact List.sublist_append_left _ _
    exact hsub.trans ((albs_calls_initial s).trans hteard)
  · intro i j hi hj
    exact trace_phase_order hB (fun c hc => (mem_lb_phase hc).2.1) hBlb i j hi hj

/-- Witness for C1: on the concrete discovered state, the listener
deletion precedes its balancer's deletion as an ordered subsequence of
the trace, and the in-use target group's deletion attempt (position 3)
comes after the listener deletion (position 0). -/
theorem teardown_dependency_order_witness :
    List.Sublist [ApiCall.deleteListener "arn-li1", ApiCall.deleteLoadBalancer "arn-lb1"]
      (teardown sOk).calls ∧ (0 : Nat) < 3 := by
  constructor
  · exact (teardown_dependency_order sOk).1 ⟨"arn-lb1", "lb1", none⟩ (by decide)
      ⟨"arn-li1", "arn-lb1", none⟩ (by decide) rfl (by decide)
  · exact (teardown_dependency_order sOk).2 ⟨3, by decide⟩ ⟨0, by decide⟩
      (by decide) (by decide)

/-- A normally returning sequenced pair needs both phases to return
normally. -/
theorem tdSeq_err_none {a b : TdResult} (h : (tdSeq a b).err = none) :
    a.err = none ∧ b.err = none := by
  unfold tdSeq at h
  cases he : a.err
  · rw [he] at h
    exact ⟨rfl, h⟩
  · rw [he] at h
    exact Option.noConfusion h

/-- C10: the load-balancer pass also deletes every discovered Classic
Load Balancer (whenever the pass returns normally), every classic
deletion comes strictly after every listener and ALB/NLB deletion, and
every listener deletion of the pass belongs to an ALB/NLB of the state
(the classic loop has no listener step). -/
theorem classic_lb_teardown_order (s : AwsState) :
    ((delete_all_load_balancers s).err = none →
      ∀ clb ∈ s.classicLBs,
        ApiCall.deleteClassicLB clb.name ∈ (delete_all_load_balancers s).calls) ∧
    (∀ i j : Fin (delete_all_load_balancers s).calls.length,
      ((delete_all_load_balancers s).calls.get i).isClassicDelete = true →
      (((delete_all_load_balancers s).calls.get j).isListenerDelete ||
        ((delete_all_load_balancers s).calls.get j).isAlbDelete) = true →
      j.val < i.val) ∧
    ∀ a, ApiCall.deleteListener a ∈ (delete_all_load_balancers s).calls →
      ∃ l ∈ s.listeners, a = l.arn ∧ ∃ lb ∈ s.loadBalancers, l.lbArn = lb.arn := by
  have hAno : ∀ c ∈ (delete_albs s s.loadBalancers).calls, c.isClassicDelete = false := by
    intro c hc
    rcases mem_delete_albs hc with ⟨_, _, l, _, _, rfl⟩ | ⟨lb, _, rfl⟩ <;> rfl
  have hdec : ∃ B, (delete_all_load_balancers s).calls =
      (delete_albs s s.loadBalancers).calls ++ B ∧
      ∀ c ∈ B, (c.isListenerDelete || c.isAlbDelete) = false := by
    unfold delete_all_load_balancers
    cases herr2 : (delete_albs s s.loadBalancers).err with
    | some e =>
      rw [tdSeq_some herr2]
      exact ⟨[], by simp, by simp⟩
    | none =>
      rw [tdSeq_none herr2]
      refine ⟨(delete_classics s.classicLBs).calls, rfl, ?_⟩
      intro c hc
      obtain ⟨k, _, rfl⟩ := mem_delete_classics hc
      rfl
  refine ⟨?_, ?_, ?_⟩
  · intro herr clb hclb
    have herr' : (tdSeq (delete_albs s s.loadBalancers)
        (delete_classics s.classicLBs)).err = none := herr
    obtain ⟨halb, hclassic⟩ := tdSeq_err_none herr'
    have hcls := delete_classics_ok hclassic
    have hmem : ApiCall.deleteClassicLB clb.name ∈ (delete_classics s.classicLBs).calls := by
      rw [hcls]
      exact List.mem_map.mpr ⟨clb, hclb, rfl⟩
    show ApiCall.deleteClassicLB clb.name ∈
      (tdSeq (delete_albs s s.loadBalancers) (delete_classics s.classicLBs)).calls
    rw [tdSeq_none halb]
    exact List.mem_append.mpr (Or.inr hmem)
  · intro i j hi hj
    obtain ⟨B, hB, hBprop⟩ := hdec
    exact trace_phase_order hB hAno hBprop i j hi hj
  · intro a hmem
    have hmem' : ApiCall.deleteListener a ∈
        (tdSeq (delete_albs s s.loadBalancers) (delete_classics s.classicLBs)).calls := hmem
    rcases mem_tdSeq hmem' with h | h
    · rcases mem_delete_albs h with ⟨lb, hlb, l, hl, harn, hceq⟩ | ⟨lb, _, hceq⟩
      · have haeq : a = l.arn := by
          injection hceq
        exact ⟨l, hl, haeq, lb, hlb, harn⟩
      · exact absurd hceq (by simp)
    · obtain ⟨k, _, hceq⟩ := mem_delete_classics h
      exact absurd hceq (by simp)

/-- Witness for C10 on the concrete state: the classic balancer is
deleted, and its deletion (position 2) comes after the listener deletion
(position 0). -/
theorem classic_lb_teardown_order_witness :
    ApiCall.deleteClassicLB "clb1" ∈ (delete_all_load_balancers sOk).calls ∧
    (0 : Nat) < 2 := by
  constructor
  · exact (classic_lb_teardown_order sOk).1 (by decide) ⟨"clb1", none⟩ (by decide)
  · exact (classic_lb_teardown_order sOk).2.1 ⟨2, by decide⟩ ⟨0, by decide⟩
      (by decide) (by decide)

/-- C4: in every teardown run whose target-group loop reaches a group
that fails deletion with ResourceInUseException, that group gets exactly
one deletion attempt at its position, its name is recorded as skipped,
the exception never escapes (the pass's outcome is whatever the rest of
the loop produces) and the loop proceeds to the remaining groups. -/
theorem tg_in_use_skipped (s : AwsState) (pre post : List TargetGroup)
    (g : TargetGroup) (m : String)
    (hsplit : s.targetGroups = pre ++ g :: post)
    (hg : g.deleteErr = some (AwsErr.resourceInUse m))
    (hpre : ∀ p ∈ pre, p.fatalErr = false) :
    delete_all_target_groups s =
      ⟨pre.map (fun p => ApiCall.deleteTargetGroup p.arn) ++
        ApiCall.deleteTargetGroup g.arn :: (delete_tgs post).calls,
       skippedNames pre ++ g.name :: (delete_tgs post).skipped,
       (delete_tgs post).err⟩ := by
  unfold delete_all_target_groups
  rw [hsplit]
  clear hsplit
  induction pre with
  | nil => simp [delete_tgs, hg, skippedNames]
  | cons p rest ih =>
    have hp := hpre p (by simp)
    have hrest := ih (fun q hq => hpre q (by simp [hq]))
    cases hpe : p.deleteErr with
    | none =>
      have hnot : p.isInUseErr = false := by simp [TargetGroup.isInUseErr, hpe]
      simp [delete_tgs, hpe, hrest, skippedNames, hnot]
    | some e =>
      cases e with
      | resourceInUse m2 =>
        have huse : p.isInUseErr = true := by simp [TargetGroup.isInUseErr, hpe]
        simp [delete_tgs, hpe, hrest, skippedNames, huse]
      | targetGroupNotFound m2 => simp [TargetGroup.fatalErr, hpe] at hp
      | clientError m2 => simp [TargetGroup.fatalErr, hpe] at hp
      | otherError m2 => simp [TargetGroup.fatalErr, hpe] at hp

/-- Witness for C4: the in-use group of the concrete state is attempted
once, recorded skipped, and the free group after it is still
processed. -/
theorem tg_in_use_skipped_witness :
    delete_all_target_groups sOk =
      ⟨List.map (fun p => ApiCall.deleteTargetGroup p.arn) ([] : List TargetGroup) ++
        ApiCall.deleteTargetGroup "arn-tg1" ::
          (delete_tgs [⟨"arn-tg2", "tg2", none⟩]).calls,
       skippedNames [] ++ "tg1" :: (delete_tgs [⟨"arn-tg2", "tg2", none⟩]).skipped,
       (delete_tgs [⟨"arn-tg2", "tg2", none⟩]).err⟩ :=
  tg_in_use_skipped sOk [] [⟨"arn-tg2", "tg2", none⟩]
    ⟨"arn-tg1", "tg1", some (AwsErr.resourceInUse "in use")⟩ "in use" rfl rfl
    (by simp)

/-- The load-balancer pass reports no skipped target groups. -/
theorem delete_all_load_balancers_skipped (s : AwsState) :
    (delete_all_load_balancers s).skipped = [] := by
  unfold delete_all_load_balancers
  cases herr : (delete_albs s s.loadBalancers).err with
  | some e =>
    rw [tdSeq_some herr]
    exact delete_albs_skipped s _
  | none =>
    rw [tdSeq_none herr]
    show (delete_albs s s.loadBalancers).skipped ++
      (delete_classics s.classicLBs).skipped = []
    rw [delete_albs_skipped, delete_classics_skipped]
    rfl

/-- The instance pass reports no skipped target groups. -/
theorem terminate_all_instances_skipped (s : AwsState) :
    (terminate_all_instances s).skipped = [] := by
  unfold terminate_all_instances
  split <;> rfl

/-- C5 counterexample: when deleting the sole load balancer raises an
unclassified provider error, the exception aborts the whole teardown:
no report is produced beyond the escaping exception, the discovered
target group never receives a deletion attempt and the discovered
instance is never terminated. -/
theorem teardown_aborts_on_unclassified_error :
    (teardown sAbort).err = some (AwsErr.clientError "InternalError") ∧
    ApiCall.deleteTargetGroup "arn-tg1" ∉ (teardown sAbort).calls ∧
    ApiCall.terminateInstances ["i-1"] ∉ (teardown sAbort).calls := by decide

/-- C5 amended: the teardown returns no per-kind report; its observable
outcome is the call trace, the printed in-use skips and the escaping
exception.  Only ResourceInUseException during target-group deletion is
tolerated: when the load-balancer pass returns normally, no target group
raises anything else and the terminate call succeeds, the teardown
returns normally, reports exactly the in-use groups as skipped and
attempts every target group. -/
theorem teardown_report_when_no_fatal_error (s : AwsState)
    (hlb : (delete_all_load_balancers s).err = none)
    (htg : ∀ g ∈ s.targetGroups, g.fatalErr = false)
    (hterm : s.terminateErr = none) :
    (teardown s).err = none ∧
    (teardown s).skipped = skippedNames s.targetGroups ∧
    ∀ g ∈ s.targetGroups, ApiCall.deleteTargetGroup g.arn ∈ (teardown s).calls := by
  have htgres : delete_all_target_groups s =
      ⟨s.targetGroups.map (fun g => ApiCall.deleteTargetGroup g.arn),
       skippedNames s.targetGroups, none⟩ := delete_tgs_nonfatal htg
  have htgerr : (delete_all_target_groups s).err = none := by rw [htgres]
  have htermerr : (terminate_all_instances s).err = none := by
    unfold terminate_all_instances
    split
    · rfl
    · exact hterm
  unfold teardown
  rw [tdSeq_none hlb, tdSeq_none htgerr]
  refine ⟨htermerr, ?_, ?_⟩
  · show (delete_all_load_balancers s).skipped ++
      ((delete_all_target_groups s).skipped ++ (terminate_all_instances s).skipped) =
        skippedNames s.targetGroups
    rw [delete_all_load_balancers_skipped, terminate_all_instances_skipped, htgres]
    simp
  · intro g hg
    show ApiCall.deleteTargetGroup g.arn ∈ (delete_all_load_balancers s).calls ++
      ((delete_all_target_groups s).calls ++ (terminate_all_instances s).calls)
    refine List.mem_append.mpr (Or.inr (List.mem_append.mpr (Or.inl ?_)))
    rw [htgres]
    exact List.mem_map.mpr ⟨g, hg, rfl⟩

/-- Witness for the amended C5 on the concrete state: the teardown
returns normally, reports exactly the in-use group as skipped, and both
target groups were attempted. -/
theorem teardown_report_when_no_fatal_error_witness :
    (teardown sOk).err = none ∧
    (teardown sOk).skipped = skippedNames sOk.targetGroups ∧
    ∀ g ∈ sOk.targetGroups, ApiCall.deleteTargetGroup g.arn ∈ (teardown sOk).calls :=
  teardown_report_when_no_fatal_error sOk (by decide) (by decide) rfl

/-- C6: the teardown issues at most one terminate call, any terminate
call it issues carries exactly the collected instance ids, an empty
discovered instance set issues no call and raises nothing, and when the
earlier passes return normally and instances exist, the one batched
terminate call over all of them is issued. -/
theorem terminate_single_batch (s : AwsState) :
    (teardown s).calls.countP (fun c => c.isTerminate) ≤ 1 ∧
    (∀ ids, ApiCall.terminateInstances ids ∈ (teardown s).calls → ids = s.instances) ∧
    (s.instances = [] → terminate_all_instances s = ⟨[], [], none⟩) ∧
    ((delete_all_load_balancers s).err = none →
      (delete_all_target_groups s).err = none → s.instances ≠ [] →
      ApiCall.terminateInstances s.instances ∈ (teardown s).calls) := by
  have hlb0 : (delete_all_load_balancers s).calls.countP (fun c => c.isTerminate) = 0 := by
    rw [List.countP_eq_zero]
    intro c hc
    simp [(mem_lb_phase hc).2.2]
  have htg0 : (delete_all_target_groups s).calls.countP (fun c => c.isTerminate) = 0 := by
    rw [List.countP_eq_zero]
    intro c hc
    simp [(mem_tg_phase hc).2.2]
  have hterm1 : (terminate_all_instances s).calls.countP (fun c => c.isTerminate) ≤ 1 := by
    unfold terminate_all_instances
    split
    · simp
    · simp [List.countP_cons, ApiCall.isTerminate]
  refine ⟨?_, ?_, ?_, ?_⟩
  · unfold teardown
    cases h1 : (delete_all_load_balancers s).err with
    | some e =>
      rw [tdSeq_some h1]
      show (delete_all_load_balancers s).calls.countP (fun c => c.isTerminate) ≤ 1
      rw [hlb0]
      exact Nat.zero_le 1
    | none =>
      rw [tdSeq_none h1]
      cases h2 : (delete_all_target_groups s).err with
      | some e =>
        rw [tdSeq_some h2]
        show ((delete_all_load_balancers s).calls ++
          (delete_all_target_groups s).calls).countP (fun c => c.isTerminate) ≤ 1
        rw [List.countP_append, hlb0, htg0]
        exact Nat.zero_le 1
      | none =>
        rw [tdSeq_none h2]
        show ((delete_all_load_balancers s).calls ++
          ((delete_all_target_groups s).calls ++
            (terminate_all_instances s).calls)).countP (fun c => c.isTerminate) ≤ 1
        rw [List.countP_append, List.countP_append, hlb0, htg0]
        simpa using hterm1
  · intro ids hmem
    have hmem' : ApiCall.terminateInstances ids ∈
        (tdSeq (delete_all_load_balancers s)
          (tdSeq (delete_all_target_groups s) (terminate_all_instances s))).calls := hmem
    rcases mem_tdSeq hmem' with h | h
    · have hfalse := (mem_lb_phase h).2.2
      simp [ApiCall.isTerminate] at hfalse
    · rcases mem_tdSeq h with h | h
      · have hfalse := (mem_tg_phase h).2.2
        simp [ApiCall.isTerminate] at hfalse
      · have heq := mem_term_phase h
        injection heq
  · intro h
    unfold terminate_all_instances
    simp [h]
  · intro h1 h2 hne
    have hcalls : (terminate_all_instances s).calls =
        [ApiCall.terminateInstances s.instances] := by
      unfold terminate_all_instances
      cases hi : s.instances with
      | nil => exact absurd hi hne
      | cons a t => simp [hi]
    unfold teardown
    rw [tdSeq_none h1, tdSeq_none h2]
    show ApiCall.terminateInstances s.instances ∈ (delete_all_load_balancers s).calls ++
      ((delete_all_target_groups s).calls ++ (terminate_all_instances s).calls)
    refine List.mem_append.mpr (Or.inr (List.mem_append.mpr (Or.inr ?_)))
    rw [hcalls]
    exact List.mem_singleton.mpr rfl

/-- Witness for C6: terminating nothing on the empty state is not an
error, and the populated state gets its one batched terminate call. -/
theorem terminate_single_batch_witness :
    terminate_all_instances sEmpty = ⟨[], [], none⟩ ∧
    ApiCall.terminateInstances ["i-1", "i-2"] ∈ (teardown sOk).calls := by
  constructor
  · exact (terminate_single_batch sEmpty).2.2.1 rfl
  · exact (terminate_single_batch sOk).2.2.2 (by decide) (by decide) (by decide)

/-- A registry holding the existing target group that the C3 scenario
starts from. -/
def regC3 : TgRegistry := ⟨[⟨"cluster1-target-group", "arn-old", "/cluster1"⟩]⟩

/-- C3: whenever the requested name already exists, create_target_group
deletes the existing group and then returns Python None without creating
any replacement: the returned ARN is none, and every group left in the
registry already existed before the call (nothing was created).  This
contradicts the claim (and the function's own docstring), which promise
delete-then-create and the ARN of the new group. -/
theorem create_target_group_existing_returns_none (reg : TgRegistry)
    (gname path freshArn : String) (tg : TgRecord)
    (hfound : reg.groups.find? (fun g => g.name == gname) = some tg) :
    (create_target_group reg gname path freshArn).2 = none ∧
    ∀ g ∈ (create_target_group reg gname path freshArn).1.groups, g ∈ reg.groups := by
  unfold create_target_group
  rw [hfound]
  refine ⟨rfl, ?_⟩
  intro g hg
  exact (List.mem_filter.mp hg).1

/-- Witness for C3 at the failing input: the existing group named
cluster1-target-group is deleted, no ARN is returned and no new group is
created. -/
theorem create_target_group_existing_returns_none_witness :
    (create_target_group regC3 "cluster1-target-group" "cluster1" "arn-new").2 = none ∧
    ∀ g ∈ (create_target_group regC3 "cluster1-target-group" "cluster1" "arn-new").1.groups,
      g ∈ regC3.groups :=
  create_target_group_existing_returns_none regC3 "cluster1-target-group" "cluster1"
    "arn-new" ⟨"cluster1-target-group", "arn-old", "/cluster1"⟩ rfl

/-- C8 counterexample: the public-IP wait does not return a
TimedOut/Unreachable result on exhaustion; it raises an exception
(modelled as Except.error), observed here on a poll stream that never
yields an address. -/
theorem wait_for_public_ip_raises_on_exhaustion :
    wait_for_public_ip (fun _ => none) "i-0" 10 =
      Except.error "Public IP for instance i-0 could not be retrieved." := rfl

/-- The SSH wait returns false for every start index once every attempt
fails. -/
theorem wait_for_ssh_from_exhaust (conn : Nat → Bool) (hconn : ∀ k, conn k = false) :
    ∀ n a, wait_for_ssh_from conn a n = false := by
  intro n
  induction n with
  | zero => intro a; rfl
  | succ n ih => intro a; simp [wait_for_ssh_from, hconn a, ih]

/-- The public-IP wait raises for every start index once every poll comes
back empty. -/
theorem wait_for_public_ip_from_exhaust (ip : Nat → Option String) (iid : String)
    (hip : ∀ k, ip k = none) :
    ∀ n a, wait_for_public_ip_from ip iid a n =
      Except.error ("Public IP for instance " ++ iid ++ " could not be retrieved.") := by
  intro n
  induction n with
  | zero => intro a; rfl
  | succ n ih => intro a; simp [wait_for_public_ip_from, hip a, ih]

/-- C8 amended: both reachability waits retry up to their bounded attempt
count, but on exhaustion only the SSH wait returns a result (false);
the public-IP wait raises an exception instead of returning. -/
theorem reachability_wait_exhaustion (conn : Nat → Bool) (ip : Nat → Option String)
    (iid : String) (r1 r2 : Nat)
    (hconn : ∀ k, conn k = false) (hip : ∀ k, ip k = none) :
    wait_for_ssh conn r1 = false ∧
    wait_for_public_ip ip iid r2 =
      Except.error ("Public IP for instance " ++ iid ++ " could not be retrieved.") :=
  ⟨wait_for_ssh_from_exhaust conn hconn r1 0,
   wait_for_public_ip_from_exhaust ip iid hip r2 0⟩

/-- Witness for the amended C8 on concrete never-reachable inputs. -/
theorem reachability_wait_exhaustion_witness :
    wait_for_ssh (fun _ => false) 10 = false ∧
    wait_for_public_ip (fun _ => none) "i-1" 10 =
      Except.error ("Public IP for instance " ++ "i-1" ++ " could not be retrieved.") :=
  reachability_wait_exhaustion (fun _ => false) (fun _ => none) "i-1" 10 10
    (fun _ => rfl) (fun _ => rfl)

/-- C9 counterexample: a ClientError raised by register_targets (an
unclassified provider error) is swallowed by register_instances, which
returns normally instead of propagating it. -/
theorem register_instances_swallows_client_error :
    (register_instances (some (AwsErr.clientError "AccessDenied"))).2 = none := rfl

/-- C9 amended: register_instances lets no exception escape at all (both
except clauses print and continue); create_listener catches ClientError
and returns Python None, and propagates only non-ClientError
exceptions. -/
theorem unclassified_error_not_propagated_policy (e : AwsErr) :
    (register_instances (some e)).2 = none ∧
    (e.isClientError = true → create_listener (Except.error e) = Except.ok none) ∧
    (e.isClientError = false → create_listener (Except.error e) = Except.error e) := by
  refine ⟨?_, ?_, ?_⟩
  · simp only [register_instances]
    split <;> rfl
  · intro h; simp [create_listener, h]
  · intro h; simp [create_listener, h]

/-- Witness for the amended C9 at a concrete non-ClientError exception. -/
theorem unclassified_error_not_propagated_policy_witness :
    (register_instances (some (AwsErr.otherError "boom"))).2 = none ∧
    create_listener (Except.error (AwsErr.otherError "boom")) =
      Except.error (AwsErr.otherError "boom") :=
  ⟨(unclassified_error_not_propagated_policy (AwsErr.otherError "boom")).1,
   (unclassified_error_not_propagated_policy (AwsErr.otherError "boom")).2.2 rfl⟩

/-- When every poll has some unhealthy target, the gate times out after
consuming its whole budget, carrying the last polled snapshot. -/
theorem healthAux_timeout (poll : Nat → HealthSnapshot)
    (hall : ∀ k, allHealthy (poll k) = false) :
    ∀ n start last, healthAux poll last start (n + 1) =
      (Outcome.TimedOut (poll (start + n)), n + 1) := by
  intro n
  induction n with
  | zero =>
    intro start last
    simp [healthAux, hall start]
  | succ n ih =>
    intro start last
    have step : healthAux poll last start (n + 1 + 1) =
        if allHealthy (poll start) = true then (Outcome.Ready (poll start), 1)
        else ((healthAux poll (poll start) (start + 1) (n + 1)).1,
              (healthAux poll (poll start) (start + 1) (n + 1)).2 + 1) := rfl
    rw [step, hall start, if_neg (by simp), ih (start + 1) (poll start)]
    have harith : start + 1 + n = start + (n + 1) := by omega
    simp [harith]

/-- C2: when some registered target never reports Healthy, the health
gate (called with positive max_retries and delay) returns TimedOut
carrying the last observed snapshot after exactly max_retries polls,
rather than raising. -/
theorem wait_for_target_group_health_timeout (poll : Nat → HealthSnapshot)
    (max_retries delay : Nat) (tid : String)
    (hpos : 0 < max_retries) (hdelay : 0 < delay)
    (hbad : ∀ k, ∃ st, (tid, st) ∈ (poll k).targets ∧ st ≠ HealthState.Healthy) :
    wait_for_target_group_health poll max_retries delay =
      (Outcome.TimedOut (poll (max_retries - 1)), max_retries) := by
  have hall : ∀ k, allHealthy (poll k) = false := by
    intro k
    obtain ⟨st, hmem, hne⟩ := hbad k
    cases hc : allHealthy (poll k)
    · rfl
    · have := List.all_eq_true.mp hc (tid, st) hmem
      exact absurd (of_decide_eq_true this) hne
  obtain ⟨m, rfl⟩ : ∃ m, max_retries = m + 1 := ⟨max_retries - 1, by omega⟩
  simp only [wait_for_target_group_health]
  rw [healthAux_timeout poll hall m 0 ⟨[]⟩]
  simp

/-- A snapshot whose single target is stuck Unhealthy. -/
def snapC2 : HealthSnapshot := ⟨[("i-1", HealthState.Unhealthy)]⟩

/-- Witness for C2: one target stuck Unhealthy, budget of three polls. -/
theorem wait_for_target_group_health_timeout_witness :
    wait_for_target_group_health (fun _ => snapC2) 3 1 =
      (Outcome.TimedOut snapC2, 3) := by
  refine wait_for_target_group_health_timeout (fun _ => snapC2)
    3 1 "i-1" (by decide) (by decide) ?_
  intro k
  show ∃ st, ("i-1", st) ∈ snapC2.targets ∧ st ≠ HealthState.Healthy
  exact ⟨HealthState.Unhealthy, by decide, by decide⟩

/-- C7: the benchmark phase executes exactly when the health gate of
every target group involved came back Ready; a TimedOut outcome for
either cluster skips it. -/
theorem benchmark_gated_on_ready (g1 g2 : Outcome × Nat) :
    benchmark_executed g1 g2 = true ↔
      ((∃ s1, g1.1 = Outcome.Ready s1) ∧ ∃ s2, g2.1 = Outcome.Ready s2) := by
  obtain ⟨o1, n1⟩ := g1
  obtain ⟨o2, n2⟩ := g2
  cases o1 <;> cases o2 <;> simp [benchmark_executed, outcome_truthy]

/-- Witness for C7: a TimedOut second gate skips the benchmark. -/
theorem benchmark_gated_on_ready_witness :
    benchmark_executed (Outcome.Ready ⟨[]⟩, 1) (Outcome.TimedOut ⟨[]⟩, 3) = false := by
  cases hb : benchmark_executed (Outcome.Ready ⟨[]⟩, 1) (Outcome.TimedOut ⟨[]⟩, 3)
  · rfl
  · obtain ⟨_, ⟨s2, hs2⟩⟩ :=
      (benchmark_gated_on_ready (Outcome.Ready ⟨[]⟩, 1) (Outcome.TimedOut ⟨[]⟩, 3)).mp hb
    exact absurd hs2 (by simp)

end Labs
